import Mathlib

/-!
Shallow embedding of `src/rust/netsim-cxx/src/captures/capture.rs`.

`CaptureInfo` is the per-chip capture record; `Captures` is the registry
holding two mappings (`chip_id_to_capture`, a `BTreeMap`, and
`facade_key_to_capture`, a `HashMap`) over shared `Arc<Mutex<CaptureInfo>>`
cells.

Modelling decisions:
- `Arc<Mutex<CaptureInfo>>` sharing is modelled by a heap: the registry keeps
  a `store` (association list from a `Nat` ref to the record) plus a fresh-ref
  counter `next_ref`; both mappings hold refs into that store, so two map
  entries holding the same ref model two clones of the same `Arc`.
- `BTreeMap` is an association list kept sorted by key; `HashMap` is an
  association list with its newest binding first and stale bindings erased on
  insert.  Well-formedness (sorted / duplicate-free keys) is stated separately,
  as the Rust containers guarantee it by construction.
- Rust machine integers become `Int`/`Nat` with explicit two's-complement
  casts (`usize as i32` etc.) where the source casts.
- The filesystem and clock touched by `start_capture` are external
  collaborators; they enter as an explicit `IoEnv` describing the outcome of
  `create_dir_all`, `OpenOptions::open`, `write_pcap_header` and
  `SystemTime::now` for that call.  File handles are opaque tokens.
- `get_facade_id` is an external FFI lookup (`crate::ffi::get_facade_id`); it
  is passed in as a function parameter.
- `println!` in `Captures::remove` is modelled as a returned diagnostic
  message (`Option String`).
-/

/-- `pub type ChipId = i32;` -/
abbrev ChipId := Int

/-- `pub type FacadeId = i32;` -/
abbrev FacadeId := Int

/-- `frontend_proto::common::ChipKind` (external protobuf enum). -/
inductive ChipKind where
  | UNSPECIFIED
  | BLUETOOTH
  | WIFI
  | UWB
deriving DecidableEq

/-- `frontend_proto::model::State` (external protobuf enum). -/
inductive State where
  | ON
  | OFF
deriving DecidableEq

/-- An open `std::fs::File` handle, opaque to this core: only its identity and
presence matter. -/
abbrev File := Nat

/-- `std::io::Error`, opaque to this core. -/
abbrev IoError := String

/-- `pub struct CaptureInfo` (capture.rs lines 41-53).  `size` is `usize`
(so `Nat`); `records`, `nanos`, `id`, `facade_id` are `i32` and `seconds` is
`i64` (so `Int`). -/
structure CaptureInfo where
  facade_id : FacadeId
  file : Option File
  id : ChipId
  chip_kind : ChipKind
  device_name : String
  size : Nat
  records : Int
  seconds : Int
  nanos : Int
  valid : Bool
deriving DecidableEq

/-- `frontend_proto::model::Capture` restricted to the fields
`get_capture_proto` populates; the always-`Some` `timestamp` message is
inlined as its `seconds`/`nanos` fields. -/
structure ProtoCapture where
  id : ChipId
  chip_kind : ChipKind
  device_name : String
  state : State
  size : Int
  records : Int
  seconds : Int
  nanos : Int
  valid : Bool
deriving DecidableEq

/-- Two's-complement reinterpretation of a natural number in `w` bits
(the semantics of Rust `as iN` on an unsigned source). -/
def toSigned (w : Nat) (n : Nat) : Int :=
  if n % 2 ^ w < 2 ^ (w - 1) then ((n % 2 ^ w : Nat) : Int)
  else ((n % 2 ^ w : Nat) : Int) - 2 ^ w

/-- Rust `usize as i32` (64-bit `usize`: truncate to 32 bits, reinterpret). -/
def usize_as_i32 (n : Nat) : Int := toSigned 32 n

/-- Rust `u64 as i64`. -/
def u64_as_i64 (n : Nat) : Int := toSigned 64 n

/-- Rust `u32 as i32`. -/
def u32_as_i32 (n : Nat) : Int := toSigned 32 n

deriving instance DecidableEq for Except

/-- Outcome of the external filesystem and clock operations performed by one
`start_capture` call: `create_dir_all`, `OpenOptions::open`,
`write_pcap_header` (returning the header byte count), and
`SystemTime::now().duration_since(UNIX_EPOCH)` as whole seconds (`u64`) and
the sub-second nanoseconds (`u32`, below 10^9). -/
structure IoEnv where
  create_dir_all : Except IoError Unit
  open_file : Except IoError File
  write_pcap_header : Except IoError Nat
  now_secs : Nat
  now_nanos : Nat
deriving DecidableEq

/-- `CaptureInfo::new` (capture.rs lines 68-81).  `get_facade_id` is the
external chip-to-facade FFI lookup, passed as a function. -/
def CaptureInfo.new (get_facade_id : ChipId → FacadeId) (chip_kind : ChipKind)
    (chip_id : ChipId) (device_name : String) : CaptureInfo :=
  { facade_id := get_facade_id chip_id
    id := chip_id
    chip_kind := chip_kind
    device_name := device_name
    size := 0
    records := 0
    seconds := 0
    nanos := 0
    valid := true
    file := none }

/-- `CaptureInfo::start_capture` (capture.rs lines 86-103).  Returns the Rust
`Result<()>` together with the record state after the call; every `?` failure
happens before any field is written, so the record rides through errors
unchanged. -/
def CaptureInfo.start_capture (env : IoEnv) (c : CaptureInfo) :
    Except IoError Unit × CaptureInfo :=
  if c.file.isSome then (Except.ok (), c)
  else
    match env.create_dir_all with
    | Except.error e => (Except.error e, c)
    | Except.ok _ =>
      match env.open_file with
      | Except.error e => (Except.error e, c)
      | Except.ok f =>
        match env.write_pcap_header with
        | Except.error e => (Except.error e, c)
        | Except.ok size =>
          (Except.ok (),
            { c with
              size := size
              records := 0
              seconds := u64_as_i64 env.now_secs
              nanos := u32_as_i32 env.now_nanos
              file := some f })

/-- `CaptureInfo::stop_capture` (capture.rs lines 108-110): drop ownership of
the file handle, keep everything else. -/
def CaptureInfo.stop_capture (c : CaptureInfo) : CaptureInfo :=
  { c with file := none }

/-- `CaptureInfo::new_facade_key` (capture.rs lines 112-114). -/
def CaptureInfo.new_facade_key (kind : ChipKind) (facade_id : FacadeId) :
    ChipKind × FacadeId :=
  (kind, facade_id)

/-- `CaptureInfo::get_facade_key` (capture.rs lines 116-118). -/
def CaptureInfo.get_facade_key (c : CaptureInfo) : ChipKind × FacadeId :=
  CaptureInfo.new_facade_key c.chip_kind c.facade_id

/-- `CaptureInfo::get_capture_proto` (capture.rs lines 120-137).  `state` is
ON iff the file handle is present; `size: self.size as i32` is the unsigned
to `i32` cast. -/
def CaptureInfo.get_capture_proto (c : CaptureInfo) : ProtoCapture :=
  { id := c.id
    chip_kind := c.chip_kind
    device_name := c.device_name
    state := if c.file.isSome then State.ON else State.OFF
    size := usize_as_i32 c.size
    records := c.records
    seconds := c.seconds
    nanos := c.nanos
    valid := c.valid }

/-- First binding of key `k` in an association list (the lookup semantics
shared by `BTreeMap::get` and `HashMap::get` on well-formed lists). -/
def alookup {α : Type} {β : Type} [DecidableEq α] (k : α) :
    List (α × β) → Option β
  | [] => none
  | (k', v) :: rest => if k = k' then some v else alookup k rest

/-- Remove the first binding of key `k` (the effect of `remove` on a
well-formed, duplicate-free association list). -/
def aerase {α : Type} {β : Type} [DecidableEq α] (k : α) :
    List (α × β) → List (α × β)
  | [] => []
  | (k', v) :: rest => if k = k' then rest else (k', v) :: aerase k rest

/-- `BTreeMap::insert`: insert at the sorted position, replacing an equal
key's value. -/
def btInsert {β : Type} (k : ChipId) (v : β) :
    List (ChipId × β) → List (ChipId × β)
  | [] => [(k, v)]
  | (k', v') :: rest =>
    if k < k' then (k, v) :: (k', v') :: rest
    else if k = k' then (k, v) :: rest
    else (k', v') :: btInsert k v rest

/-- `HashMap::insert`: replace any existing binding of `k` with the new one. -/
def hmInsert {α : Type} {β : Type} [DecidableEq α] (k : α) (v : β)
    (m : List (α × β)) : List (α × β) :=
  (k, v) :: aerase k m

/-- Apply a mutation `g` to the record behind ref `r` (locking the
`Arc<Mutex<_>>` cell and mutating it in place). -/
def mapStore (store : List (Nat × CaptureInfo)) (r : Nat)
    (g : CaptureInfo → CaptureInfo) : List (Nat × CaptureInfo) :=
  store.map (fun p => if p.1 = r then (p.1, g p.2) else p)

/-- `pub struct Captures` (capture.rs lines 60-65), with the `Arc` sharing
made explicit through `store`/`next_ref`: each map binds keys to refs into
`store`. -/
structure Captures where
  store : List (Nat × CaptureInfo)
  next_ref : Nat
  facade_key_to_capture : List ((ChipKind × FacadeId) × Nat)
  chip_id_to_capture : List (ChipId × Nat)
deriving DecidableEq

/-- `Captures::new` (capture.rs lines 141-146). -/
def Captures.new : Captures :=
  { store := []
    next_ref := 0
    facade_key_to_capture := []
    chip_id_to_capture := [] }

/-- `Captures::contains` (capture.rs lines 148-150). -/
def Captures.contains (s : Captures) (key : ChipId) : Bool :=
  (alookup key s.chip_id_to_capture).isSome

/-- `Captures::get` (capture.rs lines 152-154): the shared handle (ref) for a
chip id, if any. -/
def Captures.get (s : Captures) (key : ChipId) : Option Nat :=
  alookup key s.chip_id_to_capture

/-- `Captures::insert` (capture.rs lines 156-162): allocate one shared cell
for the record and bind that same ref under the chip id and under the
record's facade key. -/
def Captures.insert (s : Captures) (capture : CaptureInfo) : Captures :=
  { store := (s.next_ref, capture) :: s.store
    next_ref := s.next_ref + 1
    chip_id_to_capture := btInsert capture.id s.next_ref s.chip_id_to_capture
    facade_key_to_capture :=
      hmInsert capture.get_facade_key s.next_ref s.facade_key_to_capture }

/-- `Captures::is_empty` (capture.rs lines 164-166). -/
def Captures.is_empty (s : Captures) : Bool :=
  s.chip_id_to_capture.isEmpty

/-- `Captures::iter` (capture.rs lines 168-170): `BTreeMap::iter`, i.e. the
key-ordered sequence of (chip id, shared handle) pairs. -/
def Captures.iter (s : Captures) : List (ChipId × Nat) :=
  s.chip_id_to_capture

/-- `Captures::remove` (capture.rs lines 173-184).  If the chip id is bound,
remove the facade-map entry under the record's own facade key, stop the
capture, then remove the chip-id entry; otherwise print a warning (returned
here as a diagnostic message) and change nothing.  The inner store lookup
mirrors dereferencing the `Arc`; its `none` branch matches the code's
fall-through when the lock cannot be taken (the chip-id entry is still
removed) and is unreachable for well-formed registries. -/
def Captures.remove (s : Captures) (key : ChipId) : Captures × Option String :=
  match alookup key s.chip_id_to_capture with
  | some r =>
    match alookup r s.store with
    | some capture =>
      ({ s with
          facade_key_to_capture :=
            aerase capture.get_facade_key s.facade_key_to_capture
          store := mapStore s.store r CaptureInfo.stop_capture
          chip_id_to_capture := aerase key s.chip_id_to_capture }, none)
    | none =>
      ({ s with chip_id_to_capture := aerase key s.chip_id_to_capture }, none)
  | none => (s, some "key does not exist in Captures")

/-- `Captures::values` (capture.rs lines 186-188): `BTreeMap::values`, the
shared handles in chip-id order. -/
def Captures.values (s : Captures) : List Nat :=
  s.chip_id_to_capture.map Prod.snd

/-- A registry-mutating control-plane operation: register a chip for capture
tracking (`Captures::insert` of a fresh `CaptureInfo::new` record) or
deregister it (`Captures::remove`). -/
inductive Op where
  | ins (kind : ChipKind) (chip_id : ChipId) (device_name : String)
  | rem (chip_id : ChipId)
deriving DecidableEq

/-- Run one operation against the registry. -/
def applyOp (get_facade_id : ChipId → FacadeId) (s : Captures) : Op → Captures
  | Op.ins kind chip_id device_name =>
    s.insert (CaptureInfo.new get_facade_id kind chip_id device_name)
  | Op.rem chip_id => (s.remove chip_id).1

/-- Run a sequence of operations against the registry. -/
def applyOps (get_facade_id : ChipId → FacadeId) (s : Captures)
    (ops : List Op) : Captures :=
  ops.foldl (applyOp get_facade_id) s

/-- Every insert in the sequence happens at a moment where neither its chip id
nor its facade key is bound in the registry. -/
def freshInserts (get_facade_id : ChipId → FacadeId) :
    Captures → List Op → Bool
  | _, [] => true
  | s, op :: rest =>
    (match op with
     | Op.ins kind chip_id device_name =>
       (alookup chip_id s.chip_id_to_capture).isNone &&
         (alookup (CaptureInfo.new get_facade_id kind chip_id
           device_name).get_facade_key s.facade_key_to_capture).isNone
     | Op.rem _ => true) &&
      freshInserts get_facade_id (applyOp get_facade_id s op) rest

/-- The chip-id map's keys are strictly ascending — the `BTreeMap`
representation invariant. -/
def chipKeysSorted (s : Captures) : Prop :=
  List.Chain' (· < ·) (s.chip_id_to_capture.map Prod.fst)

/-- The facade map's keys are duplicate-free — the `HashMap` representation
invariant. -/
def facadeKeysNodup (s : Captures) : Prop :=
  (s.facade_key_to_capture.map Prod.fst).Nodup

/-- The two mappings reference exactly the same set of live records: a shared
record cell is reachable through the chip-id map iff it is reachable through
the facade-key map. -/
def sameRecords (s : Captures) : Prop :=
  ∀ r, r ∈ s.chip_id_to_capture.map Prod.snd ↔
    r ∈ s.facade_key_to_capture.map Prod.snd

/-- Full cross-referential registry invariant: every chip-id binding and
every facade-key binding points below the ref counter, at a stored record
whose own key matches the binding, and each record's other-map binding is the
same shared ref; both container representation invariants hold. -/
def RegInv (s : Captures) : Prop :=
  chipKeysSorted s ∧ facadeKeysNodup s ∧
  (∀ c r, alookup c s.chip_id_to_capture = some r →
    r < s.next_ref ∧ ∃ rec, alookup r s.store = some rec ∧ rec.id = c ∧
      alookup rec.get_facade_key s.facade_key_to_capture = some r) ∧
  (∀ f r, alookup f s.facade_key_to_capture = some r →
    r < s.next_ref ∧ ∃ rec, alookup r s.store = some rec ∧
      rec.get_facade_key = f ∧ alookup rec.id s.chip_id_to_capture = some r)

/-- A concrete facade resolver for exercising the development on explicit
inputs. -/
def sampleGfi : ChipId → FacadeId := fun _ => 7

/-- A concrete record whose capture is active (file handle present). -/
def sampleActive : CaptureInfo :=
  { facade_id := 7, file := some 0, id := 1, chip_kind := ChipKind.BLUETOOTH,
    device_name := "dev1", size := 24, records := 0, seconds := 5, nanos := 6,
    valid := true }

/-- A freshly created, inactive record. -/
def sampleInactive : CaptureInfo :=
  CaptureInfo.new sampleGfi ChipKind.BLUETOOTH 1 "dev1"

/-- A record whose byte counter sits at the `i32` sign boundary. -/
def sampleBig : CaptureInfo :=
  { sampleActive with size := 2 ^ 31 }

/-- A one-record registry holding `sampleActive`. -/
def sampleRegistry : Captures := Captures.new.insert sampleActive

/-- An `IoEnv` in which every filesystem operation succeeds. -/
def sampleEnvOk : IoEnv :=
  { create_dir_all := Except.ok (), open_file := Except.ok 0,
    write_pcap_header := Except.ok 24, now_secs := 100, now_nanos := 5 }

/-- An `IoEnv` whose directory creation fails. -/
def sampleEnvBad : IoEnv :=
  { create_dir_all := Except.error "boom", open_file := Except.ok 0,
    write_pcap_header := Except.ok 24, now_secs := 100, now_nanos := 5 }

/-! Association-list and container lemmas. -/

theorem alookup_cons {α β : Type} [DecidableEq α] (k k' : α) (v : β)
    (m : List (α × β)) :
    alookup k ((k', v) :: m) = if k = k' then some v else alookup k m := rfl

theorem mem_of_alookup {α β : Type} [DecidableEq α] {k : α} {v : β}
    {m : List (α × β)} (h : alookup k m = some v) : (k, v) ∈ m := by
  induction m with
  | nil => simp [alookup] at h
  | cons p rest ih =>
    obtain ⟨k', v'⟩ := p
    rw [alookup_cons] at h
    by_cases hk : k = k'
    · simp [hk] at h
      simp [hk, h]
    · simp [hk] at h
      exact List.mem_cons_of_mem _ (ih h)

theorem alookup_eq_none_of_not_mem {α β : Type} [DecidableEq α] {k : α}
    {m : List (α × β)} (h : k ∉ m.map Prod.fst) : alookup k m = none := by
  induction m with
  | nil => rfl
  | cons p rest ih =>
    obtain ⟨k', v'⟩ := p
    simp only [List.map_cons, List.mem_cons] at h
    push_neg at h
    rw [alookup_cons, if_neg h.1]
    exact ih h.2

theorem mem_keys_of_alookup {α β : Type} [DecidableEq α] {k : α} {v : β}
    {m : List (α × β)} (h : alookup k m = some v) : k ∈ m.map Prod.fst := by
  have := mem_of_alookup h
  exact List.mem_map.2 ⟨(k, v), this, rfl⟩

theorem alookup_of_mem_nodup {α β : Type} [DecidableEq α] {k : α} {v : β}
    {m : List (α × β)} (hnd : (m.map Prod.fst).Nodup) (h : (k, v) ∈ m) :
    alookup k m = some v := by
  induction m with
  | nil => simp at h
  | cons p rest ih =>
    obtain ⟨k', v'⟩ := p
    simp only [List.map_cons, List.nodup_cons] at hnd
    rcases List.mem_cons.1 h with heq | hmem
    · injection heq with h1 h2
      subst h1
      subst h2
      rw [alookup_cons, if_pos rfl]
    · have hk : k ≠ k' := by
        rintro rfl
        exact hnd.1 (List.mem_map.2 ⟨(k, v), hmem, rfl⟩)
      rw [alookup_cons, if_neg hk]
      exact ih hnd.2 hmem

theorem alookup_aerase_ne {α β : Type} [DecidableEq α] {k k' : α}
    (m : List (α × β)) (h : k ≠ k') :
    alookup k (aerase k' m) = alookup k m := by
  induction m with
  | nil => rfl
  | cons p rest ih =>
    obtain ⟨k₀, v₀⟩ := p
    rw [aerase]
    by_cases hk : k' = k₀
    · rw [if_pos hk, alookup_cons, if_neg (hk ▸ h)]
    · rw [if_neg hk, alookup_cons, alookup_cons]
      by_cases hkk : k = k₀
      · rw [if_pos hkk, if_pos hkk]
      · rw [if_neg hkk, if_neg hkk, ih]

theorem alookup_aerase_self {α β : Type} [DecidableEq α] (k : α)
    {m : List (α × β)} (hnd : (m.map Prod.fst).Nodup) :
    alookup k (aerase k m) = none := by
  induction m with
  | nil => rfl
  | cons p rest ih =>
    obtain ⟨k₀, v₀⟩ := p
    simp only [List.map_cons, List.nodup_cons] at hnd
    rw [aerase]
    by_cases hk : k = k₀
    · rw [if_pos hk]
      subst hk
      exact alookup_eq_none_of_not_mem hnd.1
    · rw [if_neg hk, alookup_cons, if_neg hk]
      exact ih hnd.2

theorem aerase_keys_sublist {α β : Type} [DecidableEq α] (k : α)
    (m : List (α × β)) :
    List.Sublist ((aerase k m).map Prod.fst) (m.map Prod.fst) := by
  induction m with
  | nil => simp [aerase]
  | cons p rest ih =>
    obtain ⟨k₀, v₀⟩ := p
    rw [aerase]
    by_cases hk : k = k₀
    · rw [if_pos hk]
      exact (List.sublist_cons_self _ _)
    · rw [if_neg hk, List.map_cons, List.map_cons]
      exact List.Sublist.cons₂ _ ih

theorem aerase_keys_nodup {α β : Type} [DecidableEq α] (k : α)
    {m : List (α × β)} (hnd : (m.map Prod.fst).Nodup) :
    ((aerase k m).map Prod.fst).Nodup :=
  hnd.sublist (aerase_keys_sublist k m)

theorem mem_map_snd_aerase {α β : Type} [DecidableEq α] {k : α} {r : β}
    {m : List (α × β)} (h : r ∈ (aerase k m).map Prod.snd) :
    r ∈ m.map Prod.snd := by
  induction m with
  | nil => simp [aerase] at h
  | cons p rest ih =>
    obtain ⟨k₀, v₀⟩ := p
    rw [aerase] at h
    by_cases hk : k = k₀
    · rw [if_pos hk] at h
      rw [List.map_cons]
      exact List.mem_cons_of_mem _ h
    · rw [if_neg hk, List.map_cons] at h
      rw [List.map_cons]
      rcases List.mem_cons.1 h with h | h
      · exact List.mem_cons.2 (Or.inl h)
      · exact List.mem_cons_of_mem _ (ih h)

theorem alookup_btInsert {β : Type} (k k' : ChipId) (v : β)
    (m : List (ChipId × β)) :
    alookup k' (btInsert k v m) =
      if k' = k then some v else alookup k' m := by
  induction m with
  | nil => rfl
  | cons p rest ih =>
    obtain ⟨k₀, v₀⟩ := p
    rw [btInsert]
    by_cases h1 : k < k₀
    · rw [if_pos h1, alookup_cons]
    · rw [if_neg h1]
      by_cases h2 : k = k₀
      · rw [if_pos h2, alookup_cons, alookup_cons]
        by_cases hk : k' = k
        · rw [if_pos hk, if_pos hk]
        · rw [if_neg hk, if_neg hk, if_neg (h2 ▸ hk)]
      · rw [if_neg h2, alookup_cons, alookup_cons]
        by_cases hk : k' = k₀
        · rw [if_pos hk, if_pos hk, if_neg (fun hh => h2 (hh.symm.trans hk))]
        · rw [if_neg hk, if_neg hk, ih]

theorem mem_keys_btInsert {β : Type} {k x : ChipId} {v : β}
    {m : List (ChipId × β)} (h : x ∈ (btInsert k v m).map Prod.fst) :
    x = k ∨ x ∈ m.map Prod.fst := by
  induction m with
  | nil => simpa [btInsert] using h
  | cons p rest ih =>
    obtain ⟨k₀, v₀⟩ := p
    rw [btInsert] at h
    by_cases h1 : k < k₀
    · rw [if_pos h1] at h
      simpa using h
    · rw [if_neg h1] at h
      by_cases h2 : k = k₀
      · rw [if_pos h2] at h
        rw [List.map_cons] at h
        rcases List.mem_cons.1 h with rfl | h
        · exact Or.inl rfl
        · exact Or.inr (List.mem_cons_of_mem _ h)
      · rw [if_neg h2, List.map_cons] at h
        rcases List.mem_cons.1 h with h | h
        · simp [h]
        · rcases ih h with h | h
          · exact Or.inl h
          · exact Or.inr (by simp [h])

theorem btInsert_keys_pairwise {β : Type} {k : ChipId} {v : β}
    {m : List (ChipId × β)}
    (h : (m.map Prod.fst).Pairwise (· < ·)) :
    ((btInsert k v m).map Prod.fst).Pairwise (· < ·) := by
  induction m with
  | nil => simp [btInsert]
  | cons p rest ih =>
    obtain ⟨k₀, v₀⟩ := p
    simp only [List.map_cons, List.pairwise_cons] at h
    rw [btInsert]
    by_cases h1 : k < k₀
    · rw [if_pos h1]
      simp only [List.map_cons, List.pairwise_cons]
      refine ⟨?_, h.1, h.2⟩
      intro a ha
      rcases List.mem_cons.1 ha with rfl | ha
      · exact h1
      · exact lt_trans h1 (h.1 a ha)
    · rw [if_neg h1]
      by_cases h2 : k = k₀
      · rw [if_pos h2]
        simp only [List.map_cons, List.pairwise_cons]
        exact ⟨fun a ha => h2 ▸ h.1 a ha, h.2⟩
      · rw [if_neg h2, List.map_cons]
        simp only [List.pairwise_cons]
        refine ⟨?_, ih h.2⟩
        intro a ha
        rcases mem_keys_btInsert ha with rfl | ha
        · rcases lt_trichotomy a k₀ with hlt | heq | hgt
          · exact absurd hlt h1
          · exact absurd heq h2
          · exact hgt
        · exact h.1 a ha

theorem mapStore_cons (y : Nat) (c : CaptureInfo)
    (rest : List (Nat × CaptureInfo)) (r : Nat)
    (g : CaptureInfo → CaptureInfo) :
    mapStore ((y, c) :: rest) r g =
      (if y = r then (y, g c) else (y, c)) :: mapStore rest r g := rfl

theorem mapStore_alookup_self (store : List (Nat × CaptureInfo)) (r : Nat)
    (g : CaptureInfo → CaptureInfo) :
    alookup r (mapStore store r g) = (alookup r store).map g := by
  induction store with
  | nil => rfl
  | cons p rest ih =>
    obtain ⟨x, c⟩ := p
    rw [mapStore_cons]
    by_cases hx : x = r
    · have hrx : r = x := hx.symm
      rw [if_pos hx, alookup_cons, if_pos hrx, alookup_cons, if_pos hrx]
      rfl
    · have hrx : ¬r = x := fun hh => hx hh.symm
      rw [if_neg hx, alookup_cons, if_neg hrx, alookup_cons, if_neg hrx]
      exact ih

theorem mapStore_alookup_ne {x : Nat} (store : List (Nat × CaptureInfo))
    {r : Nat} (g : CaptureInfo → CaptureInfo) (h : x ≠ r) :
    alookup x (mapStore store r g) = alookup x store := by
  induction store with
  | nil => rfl
  | cons p rest ih =>
    obtain ⟨y, c⟩ := p
    rw [mapStore_cons]
    by_cases hy : y = r
    · rw [if_pos hy, alookup_cons, alookup_cons,
        if_neg (fun hh => h (hh.trans hy)), if_neg (fun hh => h (hh.trans hy))]
      exact ih
    · rw [if_neg hy, alookup_cons, alookup_cons]
      by_cases hxy : x = y
      · rw [if_pos hxy, if_pos hxy]
      · rw [if_neg hxy, if_neg hxy]
        exact ih


theorem alookup_isSome_of_mem_keys {α β : Type} [DecidableEq α] {k : α}
    {m : List (α × β)} (h : k ∈ m.map Prod.fst) :
    ∃ v, alookup k m = some v := by
  induction m with
  | nil => simp at h
  | cons p rest ih =>
    obtain ⟨k', v'⟩ := p
    by_cases hk : k = k'
    · exact ⟨v', by rw [alookup_cons, if_pos hk]⟩
    · rw [List.map_cons] at h
      rcases List.mem_cons.1 h with h | h
      · exact absurd h hk
      · obtain ⟨v, hv⟩ := ih h
        exact ⟨v, by rw [alookup_cons, if_neg hk] ; exact hv⟩

theorem aerase_of_not_mem {α β : Type} [DecidableEq α] {k : α}
    {m : List (α × β)} (h : k ∉ m.map Prod.fst) : aerase k m = m := by
  induction m with
  | nil => rfl
  | cons p rest ih =>
    obtain ⟨k', v'⟩ := p
    simp only [List.map_cons, List.mem_cons] at h
    push_neg at h
    rw [aerase, if_neg h.1, ih h.2]

theorem nodup_keys_of_chain {l : List ChipId} (h : List.Chain' (· < ·) l) :
    l.Nodup := by
  have hp := List.chain'_iff_pairwise.1 h
  exact hp.imp (fun hlt => ne_of_lt hlt)

theorem remove_chip_map (s : Captures) (key : ChipId) :
    ((s.remove key).1).chip_id_to_capture = aerase key s.chip_id_to_capture := by
  rcases hk : alookup key s.chip_id_to_capture with _ | r
  · simp only [Captures.remove, hk]
    refine (aerase_of_not_mem ?_).symm
    intro hmem
    obtain ⟨v, hv⟩ := alookup_isSome_of_mem_keys hmem
    rw [hk] at hv
    cases hv
  · rcases hs : alookup r s.store with _ | rec
    · simp only [Captures.remove, hk, hs]
    · simp only [Captures.remove, hk, hs]

/-! ### Preservation of the registry invariant -/

theorem regInv_new : RegInv Captures.new := by
  refine ⟨?_, ?_, ?_, ?_⟩
  · simp [chipKeysSorted, Captures.new]
  · simp [facadeKeysNodup, Captures.new]
  · intro c r h
    simp [Captures.new, alookup] at h
  · intro f r h
    simp [Captures.new, alookup] at h

theorem regInv_insert {s : Captures} {capture : CaptureInfo}
    (hInv : RegInv s)
    (hc : alookup capture.id s.chip_id_to_capture = none)
    (hf : alookup capture.get_facade_key s.facade_key_to_capture = none) :
    RegInv (s.insert capture) := by
  obtain ⟨hSorted, hNodup, hChip, hFac⟩ := hInv
  have hfk_not_mem :
      capture.get_facade_key ∉ s.facade_key_to_capture.map Prod.fst := by
    intro hmem
    obtain ⟨v, hv⟩ := alookup_isSome_of_mem_keys hmem
    rw [hf] at hv
    cases hv
  have herase : aerase capture.get_facade_key s.facade_key_to_capture =
      s.facade_key_to_capture := aerase_of_not_mem hfk_not_mem
  refine ⟨?_, ?_, ?_, ?_⟩
  · show List.Chain' (· < ·)
      ((btInsert capture.id s.next_ref s.chip_id_to_capture).map Prod.fst)
    exact List.chain'_iff_pairwise.2
      (btInsert_keys_pairwise (List.chain'_iff_pairwise.1 hSorted))
  · show ((hmInsert capture.get_facade_key s.next_ref
      s.facade_key_to_capture).map Prod.fst).Nodup
    rw [hmInsert, herase, List.map_cons]
    exact List.nodup_cons.2 ⟨hfk_not_mem, hNodup⟩
  · intro c r h
    simp only [Captures.insert, hmInsert] at h ⊢
    rw [herase]
    rw [alookup_btInsert] at h
    by_cases hcc : c = capture.id
    · rw [if_pos hcc] at h
      cases Option.some.inj h
      refine ⟨Nat.lt_succ_self _, capture, ?_, hcc.symm, ?_⟩
      · rw [alookup_cons, if_pos rfl]
      · rw [alookup_cons, if_pos rfl]
    · rw [if_neg hcc] at h
      obtain ⟨hlt, rec, hstore, hid, hfac2⟩ := hChip c r h
      refine ⟨Nat.lt_succ_of_lt hlt, rec, ?_, hid, ?_⟩
      · rw [alookup_cons, if_neg (Nat.ne_of_lt hlt)]
        exact hstore
      · rw [alookup_cons, if_neg ?_]
        · exact hfac2
        · intro heq
          rw [heq, hf] at hfac2
          cases hfac2
  · intro f r h
    simp only [Captures.insert, hmInsert] at h ⊢
    rw [herase] at h
    rw [alookup_cons] at h
    by_cases hff : f = capture.get_facade_key
    · rw [if_pos hff] at h
      cases Option.some.inj h
      refine ⟨Nat.lt_succ_self _, capture, ?_, hff.symm, ?_⟩
      · rw [alookup_cons, if_pos rfl]
      · rw [alookup_btInsert, if_pos rfl]
    · rw [if_neg hff] at h
      obtain ⟨hlt, rec, hstore, hfk, hcid⟩ := hFac f r h
      refine ⟨Nat.lt_succ_of_lt hlt, rec, ?_, hfk, ?_⟩
      · rw [alookup_cons, if_neg (Nat.ne_of_lt hlt)]
        exact hstore
      · rw [alookup_btInsert, if_neg ?_]
        · exact hcid
        · intro heq
          rw [heq, hc] at hcid
          cases hcid

theorem regInv_remove {s : Captures} (hInv : RegInv s) (key : ChipId) :
    RegInv (s.remove key).1 := by
  obtain ⟨hSorted, hNodup, hChip, hFac⟩ := hInv
  have hndChip : (s.chip_id_to_capture.map Prod.fst).Nodup :=
    nodup_keys_of_chain hSorted
  rcases hk : alookup key s.chip_id_to_capture with _ | r
  · simp only [Captures.remove, hk]
    exact ⟨hSorted, hNodup, hChip, hFac⟩
  · obtain ⟨hlt, rec, hstore, hid, hfacr⟩ := hChip key r hk
    simp only [Captures.remove, hk, hstore]
    refine ⟨?_, ?_, ?_, ?_⟩
    · show List.Chain' (· < ·)
        ((aerase key s.chip_id_to_capture).map Prod.fst)
      exact List.chain'_iff_pairwise.2
        (List.Pairwise.sublist (aerase_keys_sublist key _)
          (List.chain'_iff_pairwise.1 hSorted))
    · show ((aerase rec.get_facade_key
        s.facade_key_to_capture).map Prod.fst).Nodup
      exact aerase_keys_nodup _ hNodup
    · intro c r' h
      by_cases hck : c = key
      · subst hck
        rw [alookup_aerase_self _ hndChip] at h
        cases h
      · rw [alookup_aerase_ne _ hck] at h
        obtain ⟨hlt', rec', hstore', hid', hfac'⟩ := hChip c r' h
        have hrr : r' ≠ r := by
          intro heq
          subst heq
          rw [hstore] at hstore'
          cases Option.some.inj hstore'
          exact hck (hid'.symm.trans hid)
        refine ⟨hlt', rec', ?_, hid', ?_⟩
        · rw [mapStore_alookup_ne _ _ hrr]
          exact hstore'
        · have hne : rec'.get_facade_key ≠ rec.get_facade_key := by
            intro heq
            rw [heq, hfacr] at hfac'
            exact hrr (Option.some.inj hfac').symm
          rw [alookup_aerase_ne _ hne]
          exact hfac'
    · intro f r' h
      by_cases hff : f = rec.get_facade_key
      · subst hff
        rw [alookup_aerase_self _ hNodup] at h
        cases h
      · rw [alookup_aerase_ne _ hff] at h
        obtain ⟨hlt', rec', hstore', hfk', hcid'⟩ := hFac f r' h
        have hrr : r' ≠ r := by
          intro heq
          subst heq
          rw [hstore] at hstore'
          cases Option.some.inj hstore'
          exact hff hfk'.symm
        have hcidne : rec'.id ≠ key := by
          intro heq
          rw [heq, hk] at hcid'
          exact hrr (Option.some.inj hcid').symm
        refine ⟨hlt', rec', ?_, hfk', ?_⟩
        · rw [mapStore_alookup_ne _ _ hrr]
          exact hstore'
        · rw [alookup_aerase_ne _ hcidne]
          exact hcid'

theorem regInv_applyOps (gfi : ChipId → FacadeId) (ops : List Op) :
    ∀ s : Captures, RegInv s → freshInserts gfi s ops = true →
      RegInv (applyOps gfi s ops) := by
  induction ops with
  | nil =>
    intro s h _
    exact h
  | cons op rest ih =>
    intro s hInv hfresh
    cases op with
    | ins kind chip_id device_name =>
      simp only [freshInserts, Bool.and_eq_true,
        Option.isNone_iff_eq_none] at hfresh
      obtain ⟨⟨hc, hf⟩, hrest⟩ := hfresh
      exact ih _ (regInv_insert hInv hc hf) hrest
    | rem chip_id =>
      simp only [freshInserts, Bool.and_eq_true, true_and] at hfresh
      exact ih _ (regInv_remove hInv chip_id) hfresh

theorem sameRecords_of_regInv {s : Captures} (hInv : RegInv s) :
    sameRecords s := by
  obtain ⟨hSorted, hNodup, hChip, hFac⟩ := hInv
  have hndChip : (s.chip_id_to_capture.map Prod.fst).Nodup :=
    nodup_keys_of_chain hSorted
  intro r
  constructor
  · intro hr
    obtain ⟨⟨c, r₀⟩, hmem, hr₀⟩ := List.mem_map.1 hr
    cases hr₀
    have hl : alookup c s.chip_id_to_capture = some r₀ :=
      alookup_of_mem_nodup hndChip hmem
    obtain ⟨_, rec, _, _, hfac⟩ := hChip c r₀ hl
    exact List.mem_map.2 ⟨(rec.get_facade_key, r₀), mem_of_alookup hfac, rfl⟩
  · intro hr
    obtain ⟨⟨f, r₀⟩, hmem, hr₀⟩ := List.mem_map.1 hr
    cases hr₀
    have hl : alookup f s.facade_key_to_capture = some r₀ :=
      alookup_of_mem_nodup hNodup hmem
    obtain ⟨_, rec, _, _, hcid⟩ := hFac f r₀ hl
    exact List.mem_map.2 ⟨(rec.id, r₀), mem_of_alookup hcid, rfl⟩

theorem chipKeysSorted_insert {s : Captures} (h : chipKeysSorted s)
    (capture : CaptureInfo) : chipKeysSorted (s.insert capture) :=
  List.chain'_iff_pairwise.2
    (btInsert_keys_pairwise (List.chain'_iff_pairwise.1 h))

theorem chipKeysSorted_remove {s : Captures} (h : chipKeysSorted s)
    (key : ChipId) : chipKeysSorted (s.remove key).1 := by
  unfold chipKeysSorted
  rw [remove_chip_map]
  exact List.chain'_iff_pairwise.2
    (List.Pairwise.sublist (aerase_keys_sublist key _)
      (List.chain'_iff_pairwise.1 h))

theorem chipKeysSorted_applyOps (gfi : ChipId → FacadeId) (ops : List Op) :
    ∀ s : Captures, chipKeysSorted s → chipKeysSorted (applyOps gfi s ops) := by
  induction ops with
  | nil =>
    intro s h
    exact h
  | cons op rest ih =>
    intro s h
    cases op with
    | ins kind chip_id device_name => exact ih _ (chipKeysSorted_insert h _)
    | rem chip_id => exact ih _ (chipKeysSorted_remove h chip_id)

/-! ### Claim theorems -/

/-- C1, counterexample: the two mappings do NOT always reference the same set
of live records.  Inserting chip id 1 as BLUETOOTH and then again as WIFI
(the facade resolver returning 0 for every chip) overwrites the chip-id
binding but leaves the stale BLUETOOTH facade-key binding in place, so the
old shared cell (ref 0) is reachable through the facade map only. -/
theorem c1_duplicate_insert_breaks_consistency :
    ¬ sameRecords (applyOps (fun _ => 0) Captures.new
      [Op.ins ChipKind.BLUETOOTH 1 "a", Op.ins ChipKind.WIFI 1 "b"]) := by
  intro h
  exact absurd ((h 0).2 (by decide)) (by decide)

/-- C1, amended: for every sequence of insert and remove operations in which
each inserted record's chip id and facade key are absent from the registry at
insertion time, the two mappings `chip_id_to_capture` and
`facade_key_to_capture` reference exactly the same set of live records: a
record exists in one iff it exists in the other.  (The original claim's
allowance for an insert whose chip id already exists is dropped: such an
insert can break the invariant, see the counterexample.) -/
theorem c1_registry_maps_same_records (gfi : ChipId → FacadeId)
    (ops : List Op) (h : freshInserts gfi Captures.new ops = true) :
    sameRecords (applyOps gfi Captures.new ops) :=
  sameRecords_of_regInv (regInv_applyOps gfi ops Captures.new regInv_new h)

/-- C1, witness: a concrete fresh sequence (insert chip 1, remove it, insert
chip 2) satisfies the freshness side condition and the consistency
conclusion. -/
theorem c1_witness :
    freshInserts (fun _ => 0) Captures.new
      [Op.ins ChipKind.BLUETOOTH 1 "a", Op.rem 1,
       Op.ins ChipKind.WIFI 2 "b"] = true ∧
    sameRecords (applyOps (fun _ => 0) Captures.new
      [Op.ins ChipKind.BLUETOOTH 1 "a", Op.rem 1,
       Op.ins ChipKind.WIFI 2 "b"]) :=
  ⟨by decide, c1_registry_maps_same_records (fun _ => 0)
    [Op.ins ChipKind.BLUETOOTH 1 "a", Op.rem 1, Op.ins ChipKind.WIFI 2 "b"]
    (by decide)⟩

/-- C2: for a chip id bound (through ref `r`) to a stored active record,
`remove` stops the capture (the stored record's file handle becomes absent),
deletes the chip-id binding and the binding under the record's own facade
key, and afterwards `contains` is false.  The two well-formedness hypotheses
are the `BTreeMap`/`HashMap` representation invariants (duplicate-free
keys). -/
theorem c2_remove_releases_and_clears (s : Captures) (chipId : ChipId)
    (r : Nat) (rec : CaptureInfo)
    (hsorted : chipKeysSorted s) (hnd : facadeKeysNodup s)
    (hc : alookup chipId s.chip_id_to_capture = some r)
    (hs : alookup r s.store = some rec)
    (hactive : rec.file.isSome = true) :
    alookup r ((s.remove chipId).1).store = some rec.stop_capture ∧
    rec.stop_capture.file = none ∧
    alookup chipId ((s.remove chipId).1).chip_id_to_capture = none ∧
    alookup rec.get_facade_key
      ((s.remove chipId).1).facade_key_to_capture = none ∧
    (s.remove chipId).1.contains chipId = false := by
  have hndChip := nodup_keys_of_chain hsorted
  simp only [Captures.remove, hc, hs]
  refine ⟨?_, rfl, ?_, ?_, ?_⟩
  · rw [mapStore_alookup_self, hs]
    rfl
  · exact alookup_aerase_self _ hndChip
  · exact alookup_aerase_self _ hnd
  · simp only [Captures.contains]
    rw [alookup_aerase_self _ hndChip]
    rfl

/-- C2, witness: removing chip id 1 from the one-record registry holding the
active `sampleActive` record. -/
theorem c2_witness :
    alookup 1 sampleRegistry.chip_id_to_capture = some 0 ∧
    alookup 0 sampleRegistry.store = some sampleActive ∧
    sampleActive.file.isSome = true ∧
    (alookup 0 ((sampleRegistry.remove 1).1).store =
        some sampleActive.stop_capture ∧
      sampleActive.stop_capture.file = none ∧
      alookup 1 ((sampleRegistry.remove 1).1).chip_id_to_capture = none ∧
      alookup sampleActive.get_facade_key
        ((sampleRegistry.remove 1).1).facade_key_to_capture = none ∧
      (sampleRegistry.remove 1).1.contains 1 = false) :=
  ⟨by decide, by decide, rfl,
    c2_remove_releases_and_clears sampleRegistry 1 0 sampleActive
      List.Chain.nil (List.nodup_singleton _) (by decide) (by decide) rfl⟩

/-- C3: `start_capture` is idempotent.  If the file handle is already
present, the call succeeds immediately and returns the record unchanged (no
environment interaction); consequently, after any successful call a second
call (under any environment) succeeds and changes nothing, so two
consecutive calls produce the state of one call. -/
theorem c3_start_capture_idempotent (env1 env2 : IoEnv) (c : CaptureInfo) :
    (c.file.isSome = true →
      CaptureInfo.start_capture env2 c = (Except.ok (), c)) ∧
    ((CaptureInfo.start_capture env1 c).1 = Except.ok () →
      CaptureInfo.start_capture env2 (CaptureInfo.start_capture env1 c).2 =
        (Except.ok (), (CaptureInfo.start_capture env1 c).2)) := by
  constructor
  · intro h
    unfold CaptureInfo.start_capture
    rw [if_pos h]
  · intro h1
    obtain ⟨cd, opf, wh, ns, nn⟩ := env1
    obtain ⟨fid, file, cid, kind, name, size, records, secs, nanos, valid⟩ := c
    cases file with
    | some f =>
      unfold CaptureInfo.start_capture
      rfl
    | none =>
      rcases cd with e1 | u
      · exact Except.noConfusion h1
      · rcases opf with e2 | f
        · exact Except.noConfusion h1
        · rcases wh with e3 | sz
          · exact Except.noConfusion h1
          · unfold CaptureInfo.start_capture
            rfl

/-- C3, witness: an already-active record is returned unchanged, and a
successful first call from the inactive sample record makes the second call
a no-op. -/
theorem c3_witness :
    (sampleActive.file.isSome = true ∧
      CaptureInfo.start_capture sampleEnvOk sampleActive =
        (Except.ok (), sampleActive)) ∧
    ((CaptureInfo.start_capture sampleEnvOk sampleInactive).1 =
        Except.ok () ∧
      CaptureInfo.start_capture sampleEnvOk
          (CaptureInfo.start_capture sampleEnvOk sampleInactive).2 =
        (Except.ok (),
          (CaptureInfo.start_capture sampleEnvOk sampleInactive).2)) :=
  ⟨⟨rfl, (c3_start_capture_idempotent sampleEnvOk sampleEnvOk
      sampleActive).1 rfl⟩,
   ⟨rfl, (c3_start_capture_idempotent sampleEnvOk sampleEnvOk
      sampleInactive).2 rfl⟩⟩

/-- C4: if `start_capture` fails with an I/O error, the record is returned
exactly as it was — in particular the file handle was and stays absent (so a
status snapshot reports OFF) and size, records, seconds and nanos keep their
prior values (they are fields of the unchanged record). -/
theorem c4_start_capture_error_frame (env : IoEnv) (c : CaptureInfo)
    (e : IoError)
    (h : (CaptureInfo.start_capture env c).1 = Except.error e) :
    (CaptureInfo.start_capture env c).2 = c ∧ c.file = none ∧
    ((CaptureInfo.start_capture env c).2).get_capture_proto.state =
      State.OFF := by
  obtain ⟨cd, opf, wh, ns, nn⟩ := env
  obtain ⟨fid, file, cid, kind, name, size, records, secs, nanos, valid⟩ := c
  cases file with
  | some f => exact Except.noConfusion h
  | none =>
    rcases cd with e1 | u
    · exact ⟨rfl, rfl, rfl⟩
    · rcases opf with e2 | f
      · exact ⟨rfl, rfl, rfl⟩
      · rcases wh with e3 | sz
        · exact ⟨rfl, rfl, rfl⟩
        · exact Except.noConfusion h

/-- C4, witness: a failing directory creation leaves the inactive sample
record untouched. -/
theorem c4_witness :
    (CaptureInfo.start_capture sampleEnvBad sampleInactive).1 =
      Except.error "boom" ∧
    ((CaptureInfo.start_capture sampleEnvBad sampleInactive).2 =
        sampleInactive ∧
      sampleInactive.file = none ∧
      ((CaptureInfo.start_capture sampleEnvBad
        sampleInactive).2).get_capture_proto.state = State.OFF) :=
  ⟨rfl, c4_start_capture_error_frame sampleEnvBad sampleInactive "boom" rfl⟩

/-- C5: `stop_capture` sets the file handle to absent and leaves every other
field (identity and counters) unchanged; it is idempotent, it cannot signal
an error (it is total and returns only the record), and a subsequent status
snapshot reports OFF. -/
theorem c5_stop_capture_frame (c : CaptureInfo) :
    c.stop_capture.file = none ∧
    c.stop_capture.facade_id = c.facade_id ∧
    c.stop_capture.id = c.id ∧
    c.stop_capture.chip_kind = c.chip_kind ∧
    c.stop_capture.device_name = c.device_name ∧
    c.stop_capture.size = c.size ∧
    c.stop_capture.records = c.records ∧
    c.stop_capture.seconds = c.seconds ∧
    c.stop_capture.nanos = c.nanos ∧
    c.stop_capture.valid = c.valid ∧
    c.stop_capture.stop_capture = c.stop_capture ∧
    c.stop_capture.get_capture_proto.state = State.OFF :=
  ⟨rfl, rfl, rfl, rfl, rfl, rfl, rfl, rfl, rfl, rfl, rfl, rfl⟩

/-- C6: immediately after `insert`, looking up by the record's chip id and by
its facade key yields the same present shared handle (the ref allocated by
the insert), that handle resolves to the inserted record, and a mutation
applied through the shared cell is what any lookup through that handle then
sees. -/
theorem c6_insert_shared_handle (s : Captures) (rec : CaptureInfo) :
    (s.insert rec).get rec.id = some s.next_ref ∧
    alookup rec.get_facade_key (s.insert rec).facade_key_to_capture =
      some s.next_ref ∧
    alookup s.next_ref (s.insert rec).store = some rec ∧
    ∀ g : CaptureInfo → CaptureInfo,
      alookup s.next_ref (mapStore (s.insert rec).store s.next_ref g) =
        some (g rec) := by
  refine ⟨?_, ?_, ?_, ?_⟩
  · show alookup rec.id (btInsert rec.id s.next_ref s.chip_id_to_capture) =
      some s.next_ref
    rw [alookup_btInsert, if_pos rfl]
  · show alookup rec.get_facade_key ((rec.get_facade_key, s.next_ref) ::
      aerase rec.get_facade_key s.facade_key_to_capture) = some s.next_ref
    rw [alookup_cons, if_pos rfl]
  · show alookup s.next_ref ((s.next_ref, rec) :: s.store) = some rec
    rw [alookup_cons, if_pos rfl]
  · intro g
    rw [mapStore_alookup_self]
    show (alookup s.next_ref ((s.next_ref, rec) :: s.store)).map g =
      some (g rec)
    rw [alookup_cons, if_pos rfl]
    rfl

/-- C7: `remove` of an unbound chip id returns the registry unchanged and
only the soft diagnostic message that was printed, raising no hard error. -/
theorem c7_remove_missing_noop (s : Captures) (chipId : ChipId)
    (h : alookup chipId s.chip_id_to_capture = none) :
    s.remove chipId = (s, some "key does not exist in Captures") := by
  simp only [Captures.remove, h]

/-- C7, witness: removing chip id 7 from the empty registry. -/
theorem c7_witness :
    alookup 7 Captures.new.chip_id_to_capture = none ∧
    Captures.new.remove 7 =
      (Captures.new, some "key does not exist in Captures") :=
  ⟨rfl, c7_remove_missing_noop Captures.new 7 rfl⟩

/-- C8: over every operation sequence from the empty registry, `iter`
produces the entries in strictly ascending chip-id order, `values` is
exactly the handles of `iter` in that order, and inserting chip ids 5, 1, 3
in that order yields them as 1, 3, 5. -/
theorem c8_iter_values_sorted (gfi : ChipId → FacadeId) (ops : List Op) :
    List.Chain' (· < ·)
      (((applyOps gfi Captures.new ops).iter).map Prod.fst) ∧
    (applyOps gfi Captures.new ops).values =
      ((applyOps gfi Captures.new ops).iter).map Prod.snd ∧
    ((applyOps (fun _ => 0) Captures.new
      [Op.ins ChipKind.BLUETOOTH 5 "a", Op.ins ChipKind.BLUETOOTH 1 "b",
       Op.ins ChipKind.BLUETOOTH 3 "c"]).iter).map Prod.fst = [1, 3, 5] := by
  refine ⟨?_, rfl, by decide⟩
  exact chipKeysSorted_applyOps gfi ops Captures.new List.chain'_nil

/-- C9: `new` followed immediately by `get_capture_proto` yields the OFF
snapshot with zero size and records (and valid), and in general the snapshot
state is ON iff the record's file handle is present. -/
theorem c9_create_snapshot_off (gfi : ChipId → FacadeId) (kind : ChipKind)
    (chipId : ChipId) (name : String) :
    (CaptureInfo.new gfi kind chipId name).get_capture_proto =
      { id := chipId, chip_kind := kind, device_name := name,
        state := State.OFF, size := 0, records := 0, seconds := 0,
        nanos := 0, valid := true } ∧
    ∀ c : CaptureInfo,
      (c.get_capture_proto.state = State.ON ↔ c.file.isSome = true) := by
  constructor
  · rfl
  · intro c
    cases hcf : c.file with
    | none => simp [CaptureInfo.get_capture_proto, hcf]
    | some f => simp [CaptureInfo.get_capture_proto, hcf]

/-- C10: the snapshot's size field is the byte counter cast to `i32`
(`self.size as i32`), so for every record whose counter is at least `2^31`
the reported size differs from the true counter. -/
theorem c10_snapshot_size_wraps (c : CaptureInfo) :
    c.get_capture_proto.size = usize_as_i32 c.size ∧
    (2 ^ 31 ≤ c.size → c.get_capture_proto.size ≠ (c.size : Int)) := by
  refine ⟨rfl, ?_⟩
  intro hge heq
  rw [show c.get_capture_proto.size = usize_as_i32 c.size from rfl] at heq
  unfold usize_as_i32 toSigned at heq
  split at heq <;> omega

/-- C10, witness: a record whose counter is exactly `2^31` reports a
(negative) size different from the counter. -/
theorem c10_witness :
    2 ^ 31 ≤ sampleBig.size ∧
    sampleBig.get_capture_proto.size ≠ (sampleBig.size : Int) :=
  ⟨by decide, (c10_snapshot_size_wraps sampleBig).2 (by decide)⟩
